import Mathlib

/-!
Verification development for the NL-Dashboard planning/consumption engine.

Shallow embedding of the engine sources:
  * `src/lib/calc.ts` (current generation: cost model, stock consumption
    engine, schedule risk summary),
  * `src/components/ProductionCalendar.tsx` (per-day conflict predicate),
  * the earlier-generation capacity analyzer (`computeStationCapacity`,
    `bottleneckStation`) and its data model (`InventoryItem`,
    `MachineStation`, `ProductionRun`), kept in namespace `Legacy`.

Modelling conventions:
  * JavaScript numbers in the cost model are embedded as `JsNum`, rationals
    extended with NaN and the two infinities, so that division by zero and
    the `safeDivide` guard behave as in IEEE/JS (IEEE overflow of finite
    sums is abstracted away; there is no negative zero).
  * Quantities in the consumption engine and the schedule are plain
    rationals; the JS coercion `Number(x) || 0` is the identity on
    rationals and is elided with a comment at each use site.
  * Calendar days (`YYYY-MM-DD` strings in the source) are embedded as
    epoch-day integers; `ymd`/`addDays`/string-equality arithmetic on such
    strings corresponds bijectively to integer arithmetic on days.
    2024-01-10 is epoch day 19732.
  * CSV and line-oriented free text is kept as `String` and parsed with
    the same trim/split/filter steps as the source.
-/

/-- JavaScript `number` for the cost model: a rational, or NaN, or an
infinity.  Finite-overflow to infinity and negative zero are not modelled;
neither is reachable in the embedded cost-model expressions from rational
snapshot fields. -/
inductive JsNum where
  | num (q : ℚ)
  | posInf
  | negInf
  | nan
deriving DecidableEq, Repr

namespace JsNum

/-- `Number.isFinite`. -/
def isFinite : JsNum → Bool
  | num _ => true
  | _ => false

/-- JS addition. -/
def add : JsNum → JsNum → JsNum
  | num a, num b => num (a + b)
  | nan, _ => nan
  | _, nan => nan
  | posInf, negInf => nan
  | negInf, posInf => nan
  | posInf, _ => posInf
  | _, posInf => posInf
  | negInf, _ => negInf
  | _, negInf => negInf

/-- JS negation. -/
def neg : JsNum → JsNum
  | num a => num (-a)
  | posInf => negInf
  | negInf => posInf
  | nan => nan

/-- JS subtraction (addition of the negation, which matches IEEE). -/
def sub (a b : JsNum) : JsNum := add a (neg b)

/-- JS multiplication (`Infinity * 0 = NaN`). -/
def mul : JsNum → JsNum → JsNum
  | num a, num b => num (a * b)
  | nan, _ => nan
  | _, nan => nan
  | posInf, posInf => posInf
  | posInf, negInf => negInf
  | negInf, posInf => negInf
  | negInf, negInf => posInf
  | posInf, num b => if b = 0 then nan else if 0 < b then posInf else negInf
  | num a, posInf => if a = 0 then nan else if 0 < a then posInf else negInf
  | negInf, num b => if b = 0 then nan else if 0 < b then negInf else posInf
  | num a, negInf => if a = 0 then nan else if 0 < a then negInf else posInf

/-- JS division (`1/0 = Infinity`, `0/0 = NaN`, `x/Infinity = 0`). -/
def div : JsNum → JsNum → JsNum
  | nan, _ => nan
  | _, nan => nan
  | num a, num b =>
      if b = 0 then (if a = 0 then nan else if 0 < a then posInf else negInf)
      else num (a / b)
  | num _, posInf => num 0
  | num _, negInf => num 0
  | posInf, num b => if 0 ≤ b then posInf else negInf
  | negInf, num b => if 0 ≤ b then negInf else posInf
  | posInf, _ => nan
  | negInf, _ => nan

/-- JS `<` (false whenever either side is NaN). -/
def lt : JsNum → JsNum → Bool
  | nan, _ => false
  | _, nan => false
  | num a, num b => decide (a < b)
  | posInf, _ => false
  | negInf, negInf => false
  | negInf, _ => true
  | num _, posInf => true
  | num _, negInf => false

/-- JS `Math.max` (NaN-propagating). -/
def max (a b : JsNum) : JsNum :=
  match a, b with
  | nan, _ => nan
  | _, nan => nan
  | x, y => if lt x y then y else x

end JsNum

/-- Embeds a rational snapshot field into the JS-number domain. -/
def jq (x : ℚ) : JsNum := JsNum.num x

/-- `const safeDivide = (n, d) => (d > 0 ? n / d : 0)` from `calc.ts`. -/
def safeDivide (n d : JsNum) : JsNum :=
  if JsNum.lt (JsNum.num 0) d then JsNum.div n d else JsNum.num 0

/-! ## Data model (`src/lib/types.ts`, current generation) -/

inductive ScenarioName where
  | Pilot | Ramp | Scale
deriving DecidableEq, Repr

structure GlobalInputs where
  salePricePerUnit : ℚ
  monthlyDemand : ℚ
  availableMinutesPerMonth : ℚ
  oee : ℚ
  downtimePct : ℚ
  labourRatePerHour : ℚ
  labourMinutesPerUnit : ℚ
  qualityCostPerUnit : ℚ
  scrapRatePct : Option ℚ
  overheadPct : Option ℚ
  holdingRatePctAnnual : Option ℚ
  safetyStockDays : Option ℚ
  capexTotal : ℚ
  depreciationMonths : ℚ
  marginGuardrailPct : ℚ
deriving DecidableEq, Repr

inductive StockType where
  | Component | Consumable | Packaging | Spare
deriving DecidableEq, Repr

structure StockItem where
  id : String
  name : String
  itemType : StockType
  unitCost : ℚ
  uom : String
  location : String
  usagePerFinishedUnit : ℚ
  leadTimeDays : ℚ
  moq : ℚ
  singleSource : Bool
  onHandQty : ℚ
  reorderPointQty : Option ℚ
  minQty : Option ℚ
deriving DecidableEq, Repr

inductive LaneDirection where
  | Inbound | Outbound
deriving DecidableEq, Repr

inductive LaneMode where
  | Air | Sea | Road
deriving DecidableEq, Repr

structure LogisticsLane where
  id : String
  lane : String
  direction : LaneDirection
  mode : LaneMode
  costPerShipment : ℚ
  unitsPerShipment : ℚ
deriving DecidableEq, Repr

inductive WarehouseType where
  | FG | RM
deriving DecidableEq, Repr

structure Warehouse where
  id : String
  location : String
  warehouseType : WarehouseType
  monthlyCost : ℚ
  utilizationPct : ℚ
  capacityPctLimit : Option ℚ
deriving DecidableEq, Repr

structure Person where
  id : String
  name : String
  role : String
  shift : String
  notes : String
deriving DecidableEq, Repr

inductive MachineStatus where
  | Available | InUse | OutOfService
deriving DecidableEq, Repr

structure MachineAsset where
  id : String
  name : String
  machineType : String
  status : MachineStatus
  notes : String
deriving DecidableEq, Repr

/-- Production lifecycle stage (`'Assembly' | 'Post-Assembly'`). -/
inductive Stage where
  | Assembly | PostAssembly
deriving DecidableEq, Repr

structure ProcessTemplate where
  id : String
  name : String
  stage : Stage
  defaultDurationMin : ℚ
  allowedMachineTypesCsv : String
  notes : String
deriving DecidableEq, Repr

inductive BatchStatus where
  | Planned | InProgress | Issue | Complete | Quarantine | Rejected | Cancelled
deriving DecidableEq, Repr

structure ProductionBatch where
  id : String
  batchNumber : String
  purpose : String
  plannedQty : ℚ
  goodQty : ℚ
  scrapStage : Stage
  scrapQty : ℚ
  componentRejects : String
  status : BatchStatus
  notes : String
  observations : String
deriving DecidableEq, Repr

structure ScheduledProcess where
  id : String
  batchId : String
  date : ℤ
  durationDays : ℤ
  processId : String
  assignedPeopleIdsCsv : String
  assignedMachineIdsCsv : String
  status : BatchStatus
  notes : String
  observations : String
deriving DecidableEq, Repr

inductive MaintStatus where
  | Planned | InProgress | Complete | Cancelled
deriving DecidableEq, Repr

structure MaintenanceBlock where
  id : String
  date : ℤ
  durationDays : ℤ
  machineIdsCsv : String
  title : String
  notes : String
  status : MaintStatus
deriving DecidableEq, Repr

structure RiskEntry where
  id : String
  area : String
  status : String
  mitigation : String
  owner : String
deriving DecidableEq, Repr

structure PlanningDecision where
  id : String
  title : String
  target : String
  owner : String
  status : String
  notes : String
deriving DecidableEq, Repr

structure CapaItem where
  id : String
  ref : String
  batchId : Option String
  title : String
  owner : String
  dueDate : String
  status : String
  rootCause : String
  action : String
  notes : String
deriving DecidableEq, Repr

structure ScenarioData where
  name : ScenarioName
  decisions : List PlanningDecision
  capas : List CapaItem
  inputs : GlobalInputs
  stock : List StockItem
  people : List Person
  machines : List MachineAsset
  processes : List ProcessTemplate
  batches : List ProductionBatch
  schedule : List ScheduledProcess
  maintenanceBlocks : List MaintenanceBlock
  logistics : List LogisticsLane
  warehouses : List Warehouse
  risks : List RiskEntry
  auditLog : List String
deriving DecidableEq, Repr

/-! ## Cost model (`calc.ts`, current generation) -/

structure CostBreakdown where
  labour : JsNum
  labourOverhead : JsNum
  material : JsNum
  logistics : JsNum
  warehouse : JsNum
  holding : JsNum
  capexDepreciation : JsNum
  quality : JsNum
  total : JsNum
  marginPerUnit : JsNum
  marginPct : JsNum
deriving DecidableEq, Repr

/-- `scrapMultiplier`: `1 + Math.max(0, s.inputs.scrapRatePct ?? 0)`. -/
def scrapMultiplier (s : ScenarioData) : JsNum :=
  JsNum.add (JsNum.num 1) (JsNum.max (JsNum.num 0) (jq (s.inputs.scrapRatePct.getD 0)))

/-- `holdingRateMonthly`: `(s.inputs.holdingRatePctAnnual ?? 0.24) / 12`. -/
def holdingRateMonthly (s : ScenarioData) : JsNum :=
  JsNum.div (jq (s.inputs.holdingRatePctAnnual.getD (24 / 100))) (JsNum.num 12)

/-- `computeCostBreakdown` from `calc.ts` (current generation). -/
def computeCostBreakdown (s : ScenarioData) : CostBreakdown :=
  let v := JsNum.mul (jq s.inputs.monthlyDemand) (scrapMultiplier s)
  let labourBase :=
    JsNum.mul (JsNum.div (jq s.inputs.labourRatePerHour) (JsNum.num 60))
      (jq s.inputs.labourMinutesPerUnit)
  let overheadPct := jq (s.inputs.overheadPct.getD (25 / 100))
  let labourOverhead := JsNum.mul labourBase overheadPct
  let labour := labourBase
  let material :=
    s.stock.foldl
      (fun sum i => JsNum.add sum (JsNum.mul (jq i.unitCost) (jq i.usagePerFinishedUnit)))
      (JsNum.num 0)
  let logistics :=
    s.logistics.foldl
      (fun sum l => JsNum.add sum (safeDivide (jq l.costPerShipment) (jq l.unitsPerShipment)))
      (JsNum.num 0)
  let warehouseMonthly :=
    s.warehouses.foldl (fun sum w => JsNum.add sum (jq w.monthlyCost)) (JsNum.num 0)
  let warehouse := safeDivide warehouseMonthly v
  let holding := JsNum.mul material (holdingRateMonthly s)
  let capexDepreciation :=
    safeDivide (safeDivide (jq s.inputs.capexTotal) (jq s.inputs.depreciationMonths)) v
  let quality := jq s.inputs.qualityCostPerUnit
  let total :=
    JsNum.add
      (JsNum.add
        (JsNum.add
          (JsNum.add
            (JsNum.add
              (JsNum.add (JsNum.add labour labourOverhead) material)
              logistics)
            warehouse)
          holding)
        capexDepreciation)
      quality
  let marginPerUnit := JsNum.sub (jq s.inputs.salePricePerUnit) total
  let marginPct := JsNum.mul (safeDivide marginPerUnit (jq s.inputs.salePricePerUnit)) (JsNum.num 100)
  { labour := labour
    labourOverhead := labourOverhead
    material := material
    logistics := logistics
    warehouse := warehouse
    holding := holding
    capexDepreciation := capexDepreciation
    quality := quality
    total := total
    marginPerUnit := marginPerUnit
    marginPct := marginPct }

/-! ## Free-text parsing helpers (`calc.ts`)

String splitting, trimming and lowercasing are implemented structurally on
the character list so that every definition evaluates by kernel reduction;
they compute the same functions as JS `split`/`trim`/`toLowerCase` on the
engine's comma- and newline-separated fields. -/

/-- Whitespace for `trim` (the ASCII cases; the engine's fields contain no
exotic unicode whitespace). -/
def isWs (c : Char) : Bool :=
  c = ' ' || c = '\t' || c = '\n' || c = '\r'

/-- Both-ends trim on a character list. -/
def trimChars (cs : List Char) : List Char :=
  (((cs.dropWhile isWs).reverse).dropWhile isWs).reverse

/-- JS `String.prototype.trim`. -/
def jsTrim (s : String) : String := String.mk (trimChars s.data)

/-- Splitting a character list at a separator character (JS `split` with a
one-character separator, which is the only form the engine uses). -/
def splitOnChar (sep : Char) : List Char → List (List Char)
  | [] => [[]]
  | c :: t =>
      let r := splitOnChar sep t
      if c = sep then [] :: r
      else
        match r with
        | h :: t2 => (c :: h) :: t2
        | [] => [[c]]

/-- JS `s.split(sep)` for a one-character separator. -/
def jsSplit (s : String) (sep : Char) : List String :=
  (splitOnChar sep s.data).map String.mk

/-- JS `String.prototype.toLowerCase` (ASCII). -/
def jsToLower (s : String) : String :=
  String.mk (s.data.map Char.toLower)

/-- `parseCsv`: `s.split(',').map(x => x.trim()).filter(Boolean)`. -/
def parseCsv (s : String) : List String :=
  ((jsSplit s ',').map jsTrim).filter (fun x => x ≠ "")

/-- The fragment of JS `Number(string)` exercised by the engine's free-text
lines: optional sign, decimal digits, optional fraction; the empty string
is 0; anything else (including the here-irrelevant hex/exponent forms) is
treated as not finite and returns `none`, which the callers skip exactly as
they skip NaN. -/
def jsParseNumber (str : String) : Option ℚ :=
  let t := trimChars str.data
  if t = [] then some 0
  else
    let (sign, rest) : ℚ × List Char :=
      match t with
      | '-' :: cs => (-1, cs)
      | '+' :: cs => (1, cs)
      | cs => (1, cs)
    let intDs := rest.takeWhile Char.isDigit
    let rem := rest.drop intDs.length
    let natVal : List Char → ℚ :=
      fun ds => ds.foldl (fun a c => a * 10 + ((c.toNat : ℚ) - 48)) 0
    match rem with
    | [] => if intDs = [] then none else some (sign * natVal intDs)
    | '.' :: fds =>
        if fds.all Char.isDigit ∧ (intDs ≠ [] ∨ fds ≠ []) then
          some (sign * (natVal intDs + natVal fds / (10 : ℚ) ^ fds.length))
        else none
    | _ => none

/-- `findStockIdByName`: case-insensitive exact-trim name lookup over
`s.stock`, returning the id of the first match. -/
def findStockIdByName (s : ScenarioData) (name : String) : Option String :=
  let n := jsToLower (jsTrim name)
  (s.stock.find? (fun i => jsToLower (jsTrim i.name) = n)).map StockItem.id

/-- `out[id] = (out[id] ?? 0) + qty` on a JS object embedded as an
association list in first-insertion order. -/
def upsertAdd : List (String × ℚ) → String → ℚ → List (String × ℚ)
  | [], id, q => [(id, q)]
  | (k, v) :: t, id, q =>
      if k = id then (k, v + q) :: t else (k, v) :: upsertAdd t id q

/-- `parseItemQtyLinesToIdQty` from `calc.ts`: split the text into trimmed
non-empty lines; per line split on commas, resolve the item name, parse the
quantity; skip the line when fewer than two fields, when the name resolves
to no id (or to a falsy empty-string id), or when the quantity is not
finite; accumulate per id. -/
def parseItemQtyLinesToIdQty (s : ScenarioData) (text : String) : List (String × ℚ) :=
  let trimmed := jsTrim text
  if trimmed = "" then []
  else
    let lines := ((jsSplit trimmed '\n').map jsTrim).filter (fun x => x ≠ "")
    lines.foldl
      (fun out line =>
        let parts := (jsSplit line ',').map jsTrim
        match parts with
        | p0 :: p1 :: _ =>
            match findStockIdByName s p0, jsParseNumber p1 with
            | some id, some qty => if id = "" then out else upsertAdd out id qty
            | _, _ => out
        | _ => out)
      []

/-! ## Stock Consumption Engine (`calc.ts`) -/

/-- Pointwise update of a consumption map. -/
def updateFn (t : String → ℚ) (k : String) (v : ℚ) : String → ℚ :=
  fun id => if id = k then v else t id

/-- `addBomConsumption`: `if (!units) return;` then for every stock item
`target[item.id] += units * usagePerFinishedUnit` (the `Number(..) || 0`
coercion is the identity on rationals). -/
def addBomConsumption (s : ScenarioData) (target : String → ℚ) (units : ℚ) : String → ℚ :=
  if units = 0 then target
  else
    s.stock.foldl
      (fun t item => updateFn t item.id (t item.id + units * item.usagePerFinishedUnit))
      target

/-- Membership of `b.id` in `completedBatchIds`, the set of batch ids with
at least one schedule entry of status Complete. -/
def completedBatch (s : ScenarioData) (bid : String) : Bool :=
  s.schedule.any (fun x => x.status = BatchStatus.Complete && x.batchId = bid)

/-- The loop body of `stockConsumptionFromCompletedBatches` for one gated
batch: good units consume the full BOM; then scrap, if nonzero, consumes
the full BOM for Post-Assembly scrap, and for Assembly scrap the parsed
component rejects, falling back to the full BOM when no line parses. -/
def applyBatch (s : ScenarioData) (acc : String → ℚ) (b : ProductionBatch) : String → ℚ :=
  let acc1 := addBomConsumption s acc b.goodQty
  let scrapQty := b.scrapQty
  if scrapQty = 0 then acc1
  else
    match b.scrapStage with
    | Stage.PostAssembly => addBomConsumption s acc1 scrapQty
    | Stage.Assembly =>
        let compRejects := parseItemQtyLinesToIdQty s b.componentRejects
        if compRejects = [] then addBomConsumption s acc1 scrapQty
        else compRejects.foldl (fun t kv => updateFn t kv.1 (t kv.1 + kv.2)) acc1

/-- `stockConsumptionFromCompletedBatches`: the per-item consumption map
(read pointwise; ids initialised to 0, reads of absent keys are `?? 0`),
gated per batch on `completedBatchIds.has(b.id)`. -/
def stockConsumptionFromCompletedBatches (s : ScenarioData) : String → ℚ :=
  s.batches.foldl
    (fun acc b => if completedBatch s b.id then applyBatch s acc b else acc)
    (fun _ => 0)

/-! ## Schedule Conflict Detector (`calc.ts` `scheduleRiskSummary`) -/

/-- The day span `[date, date + (durationDays || 1))` of a schedule entry or
maintenance block, as the list of epoch days touched by the source's
`for (let i = 0; i < dur; i++)` loop. -/
def spanDays (date : ℤ) (durationDays : ℤ) : List ℤ :=
  let dur : ℤ := if durationDays = 0 then 1 else durationDays
  (List.range dur.toNat).map (fun i => date + (i : ℤ))

/-- The rolling 7-day window `[today, today+6]` built at the top of
`scheduleRiskSummary` (in the source, `today` is read from `new Date()`
inside the function; the embedding passes that clock reading explicitly). -/
def windowDays (today : ℤ) : List ℤ :=
  (List.range 7).map (fun i => today + (i : ℤ))

/-- Person bookings per window day in `scheduleRiskSummary`: each
non-Cancelled schedule entry increments the tally of every listed person id
on every day of its span that lies in the window (the map holds keys only
for window days). -/
def byDayPeople (s : ScenarioData) (today : ℤ) (d : ℤ) (p : String) : ℕ :=
  if d ∈ windowDays today then
    (((s.schedule.filter
          (fun evt => evt.status ≠ BatchStatus.Cancelled ∧ d ∈ spanDays evt.date evt.durationDays)).map
        (fun evt => (parseCsv evt.assignedPeopleIdsCsv).count p)).sum)
  else 0

/-- Machine bookings per window day in `scheduleRiskSummary`. -/
def byDayMachines (s : ScenarioData) (today : ℤ) (d : ℤ) (m : String) : ℕ :=
  if d ∈ windowDays today then
    (((s.schedule.filter
          (fun evt => evt.status ≠ BatchStatus.Cancelled ∧ d ∈ spanDays evt.date evt.durationDays)).map
        (fun evt => (parseCsv evt.assignedMachineIdsCsv).count m)).sum)
  else 0

/-- `maintenanceBooking` from `scheduleRiskSummary`: some non-Cancelled
maintenance block lists the machine and spans the day. -/
def maintenanceBooking (s : ScenarioData) (machineId : String) (day : ℤ) : Bool :=
  s.maintenanceBlocks.any
    (fun mb =>
      mb.status ≠ MaintStatus.Cancelled ∧
        machineId ∈ parseCsv mb.machineIdsCsv ∧ day ∈ spanDays mb.date mb.durationDays)

/-- `evt.status === 'Issue' || evt.status === 'Quarantine' || evt.status === 'Cancelled'`. -/
def blockedStatus : BatchStatus → Bool
  | BatchStatus.Issue => true
  | BatchStatus.Quarantine => true
  | BatchStatus.Cancelled => true
  | _ => false

inductive RiskTag where
  | ready | atRisk | blocked
deriving DecidableEq, Repr

/-- The per-entry classification performed by the evaluation loop of
`scheduleRiskSummary`: entries whose start date is outside the window are
skipped; blocked statuses count as blocked; otherwise the entry is at risk
when some assigned person or machine has a same-day tally above 1 on the
start day, or some assigned machine is maintenance-booked on the start
day; else ready. -/
def riskClass (s : ScenarioData) (today : ℤ) (evt : ScheduledProcess) : Option RiskTag :=
  if evt.date ∈ windowDays today then
    if blockedStatus evt.status then some RiskTag.blocked
    else
      let pIds := parseCsv evt.assignedPeopleIdsCsv
      let mIds := parseCsv evt.assignedMachineIdsCsv
      let doubleBooked :=
        pIds.any (fun p => byDayPeople s today evt.date p > 1) ||
          mIds.any (fun m => byDayMachines s today evt.date m > 1)
      let maintClash := mIds.any (fun m => maintenanceBooking s m evt.date)
      if doubleBooked || maintClash then some RiskTag.atRisk else some RiskTag.ready
  else none

structure RiskSummary where
  ready : ℕ
  atRisk : ℕ
  blocked : ℕ
deriving DecidableEq, Repr

/-- `scheduleRiskSummary` from `calc.ts`.  In the source the window start is
`new Date()` read inside the function; `today` here is that clock reading,
made an explicit argument of the embedding. -/
def scheduleRiskSummary (s : ScenarioData) (today : ℤ) : RiskSummary :=
  s.schedule.foldl
    (fun c evt =>
      match riskClass s today evt with
      | some RiskTag.ready => { c with ready := c.ready + 1 }
      | some RiskTag.atRisk => { c with atRisk := c.atRisk + 1 }
      | some RiskTag.blocked => { c with blocked := c.blocked + 1 }
      | none => c)
    { ready := 0, atRisk := 0, blocked := 0 }

/-! ## Calendar conflict predicate (`ProductionCalendar.tsx`) -/

/-- `machineBlockedByMaintenance` from `ProductionCalendar.tsx` (textually
the same test as `maintenanceBooking` in `calc.ts`). -/
def machineBlockedByMaintenance (s : ScenarioData) (machineId : String) (day : ℤ) : Bool :=
  s.maintenanceBlocks.any
    (fun mb =>
      mb.status ≠ MaintStatus.Cancelled ∧
        machineId ∈ parseCsv mb.machineIdsCsv ∧ day ∈ spanDays mb.date mb.durationDays)

/-- Person tallies of `conflictsByDay` in `ProductionCalendar.tsx`: keyed by
the visible grid days; every non-Cancelled schedule entry books each listed
person id on each grid day of its span. -/
def conflictsByDayPeople (s : ScenarioData) (grid : List ℤ) (d : ℤ) (p : String) : ℕ :=
  if d ∈ grid then
    (((s.schedule.filter
          (fun evt => evt.status ≠ BatchStatus.Cancelled ∧ d ∈ spanDays evt.date evt.durationDays)).map
        (fun evt => (parseCsv evt.assignedPeopleIdsCsv).count p)).sum)
  else 0

/-- Machine tallies of `conflictsByDay` in `ProductionCalendar.tsx`. -/
def conflictsByDayMachines (s : ScenarioData) (grid : List ℤ) (d : ℤ) (m : String) : ℕ :=
  if d ∈ grid then
    (((s.schedule.filter
          (fun evt => evt.status ≠ BatchStatus.Cancelled ∧ d ∈ spanDays evt.date evt.durationDays)).map
        (fun evt => (parseCsv evt.assignedMachineIdsCsv).count m)).sum)
  else 0

/-- `eventHasConflictOnDay` from `ProductionCalendar.tsx`: false when the
day is off the grid (`if (!counts) return false`), else double-booking of
any assigned person or machine on that day, or a maintenance clash of any
assigned machine on that day. -/
def eventHasConflictOnDay (s : ScenarioData) (grid : List ℤ) (evt : ScheduledProcess)
    (day : ℤ) : Bool :=
  let people := parseCsv evt.assignedPeopleIdsCsv
  let machines := parseCsv evt.assignedMachineIdsCsv
  if day ∈ grid then
    (people.any (fun p => conflictsByDayPeople s grid day p > 1) ||
        machines.any (fun m => conflictsByDayMachines s grid day m > 1)) ||
      machines.any (fun m => machineBlockedByMaintenance s m day)
  else false

/-! ## Earlier engine generation (`Legacy`): data model of the intermediate
types file (`InventoryItem`, `MachineStation`, `ProductionRun`) and the
capacity analyzer of the earlier calc module. -/

namespace Legacy

inductive ItemCategory where
  | RM | Component | Packaging
deriving DecidableEq, Repr

structure InventoryItem where
  id : String
  name : String
  category : ItemCategory
  unitCost : ℚ
  usagePerProduct : ℚ
  leadTimeDays : ℚ
  moq : ℚ
  singleSource : Bool
  onHandQty : ℚ
  reorderPointQty : Option ℚ
  minQty : Option ℚ
  uom : Option String
  location : Option String
deriving DecidableEq, Repr

structure MachineStation where
  id : String
  station : String
  cycleTimeSec : ℚ
  machinesInstalled : ℚ
deriving DecidableEq, Repr

structure MaintenanceAsset where
  id : String
  machineType : String
  pmHoursPerMonth : ℚ
  sparesCostPerMonth : ℚ
  serviceCostPerMonth : ℚ
deriving DecidableEq, Repr

inductive ScrapScope where
  | Components | FullBom
deriving DecidableEq, Repr

inductive RunStatus where
  | Planned | InProgress | Complete | Blocked | Cancelled
deriving DecidableEq, Repr

/-- `ProductionRun` of the intermediate types file, including the legacy
absolute-override field `consumptionOverrides` ("Item Name, QtyConsumed"
lines, "wins last"). -/
structure ProductionRun where
  id : String
  date : ℤ
  startTime : String
  durationMin : ℚ
  process : String
  workOrder : String
  unitsPlanned : ℚ
  unitsGood : ℚ
  unitsScrap : ℚ
  scrapScope : ScrapScope
  componentScrapOverrides : String
  assignedPeople : String
  machinesUsed : String
  status : RunStatus
  notes : String
  observations : String
  consumptionOverrides : String
deriving DecidableEq, Repr

structure ScenarioData where
  name : ScenarioName
  decisions : List PlanningDecision
  inputs : GlobalInputs
  inventory : List InventoryItem
  logistics : List LogisticsLane
  machines : List MachineStation
  people : List Person
  production : List ProductionRun
  warehouses : List Warehouse
  maintenance : List MaintenanceAsset
  auditLog : List String
deriving DecidableEq, Repr

/-- The earlier calc module's `safeDivide` (same text as the current one),
over the rational quantities of the capacity analyzer. -/
def safeDivide (n d : ℚ) : ℚ := if 0 < d then n / d else 0

/-- `scrapMultiplier` of the earlier calc module. -/
def scrapMultiplier (s : ScenarioData) : ℚ :=
  1 + max 0 (s.inputs.scrapRatePct.getD 0)

structure StationCapacityRow where
  station : String
  cycleTimeSec : ℚ
  installed : ℚ
  capacityUnitsPerMonth : ℚ
  requiredUnitsPerMonth : ℚ
  utilizationPct : ℚ
  requiredMachines : ℚ
  shortfallMachines : ℚ
deriving DecidableEq, Repr

/-- `computeStationCapacity` from the earlier calc module. -/
def computeStationCapacity (s : ScenarioData) : List StationCapacityRow :=
  let demand := s.inputs.monthlyDemand * scrapMultiplier s
  let monthlySecs := s.inputs.availableMinutesPerMonth * 60
  s.machines.map (fun m =>
    let perMachineCapacity := safeDivide (monthlySecs * s.inputs.oee) m.cycleTimeSec
    let capacityUnitsPerMonth := perMachineCapacity * m.machinesInstalled
    let requiredMachines := safeDivide demand perMachineCapacity
    let shortfallMachines := max 0 (requiredMachines - m.machinesInstalled)
    let utilizationPct := safeDivide demand capacityUnitsPerMonth * 100
    { station := m.station
      cycleTimeSec := m.cycleTimeSec
      installed := m.machinesInstalled
      capacityUnitsPerMonth := capacityUnitsPerMonth
      requiredUnitsPerMonth := demand
      utilizationPct := utilizationPct
      requiredMachines := requiredMachines
      shortfallMachines := shortfallMachines })

/-- `bottleneckStation`: `rows.reduce((worst, r) =>
(r.utilizationPct > worst.utilizationPct ? r : worst), rows[0])`. -/
def bottleneckStation (s : ScenarioData) : Option StationCapacityRow :=
  let rows := computeStationCapacity s
  match rows with
  | [] => none
  | r0 :: _ =>
      some (rows.foldl
        (fun worst r => if worst.utilizationPct < r.utilizationPct then r else worst) r0)

/-- Case-insensitive exact-trim name lookup over `s.inventory`, as in the
free-text parsers of this generation. -/
def findInventoryIdByName (s : ScenarioData) (name : String) : Option String :=
  let n := jsToLower (jsTrim name)
  (s.inventory.find? (fun i => jsToLower (jsTrim i.name) = n)).map InventoryItem.id

/-- "Item Name, Qty" line parsing against `s.inventory`, with the same
trim/split/skip-on-malformed steps as `parseItemQtyLinesToIdQty`. -/
def parseItemQtyLines (s : ScenarioData) (text : String) : List (String × ℚ) :=
  let trimmed := jsTrim text
  if trimmed = "" then []
  else
    let lines := ((jsSplit trimmed '\n').map jsTrim).filter (fun x => x ≠ "")
    lines.foldl
      (fun out line =>
        let parts := (jsSplit line ',').map jsTrim
        match parts with
        | p0 :: p1 :: _ =>
            match findInventoryIdByName s p0, jsParseNumber p1 with
            | some id, some qty => if id = "" then out else upsertAdd out id qty
            | _, _ => out
        | _ => out)
      []

/-- Modelled from the spec: the engine code that applies
`ProductionRun.consumptionOverrides` is absent from the repository sources
(only the field declaration in the intermediate types file remains).
Following the spec's production rules: good units always consume the full
BOM; scrap consumes itemized component rejects when the run's scrap scope
is component-level (falling back to the full BOM when no line parses), and
the full BOM otherwise; finally, absolute consumption overrides, when
present for an item, replace — do not add to — the computed quantity for
that item on that run. -/
def runConsumption (s : ScenarioData) (r : ProductionRun) : String → ℚ :=
  let bomPart : String → ℚ := fun id =>
    (((s.inventory.filter (fun i => i.id = id)).map
        (fun i => r.unitsGood * i.usagePerProduct)).sum)
  let scrapPart : String → ℚ := fun id =>
    match r.scrapScope with
    | ScrapScope.FullBom =>
        (((s.inventory.filter (fun i => i.id = id)).map
            (fun i => r.unitsScrap * i.usagePerProduct)).sum)
    | ScrapScope.Components =>
        let rejects := parseItemQtyLines s r.componentScrapOverrides
        if rejects = [] then
          (((s.inventory.filter (fun i => i.id = id)).map
              (fun i => r.unitsScrap * i.usagePerProduct)).sum)
        else ((rejects.filter (fun kv => kv.1 = id)).map Prod.snd).sum
  let overrides := parseItemQtyLines s r.consumptionOverrides
  fun id =>
    match overrides.lookup id with
    | some q => q
    | none => bomPart id + scrapPart id

end Legacy

/-- Follows the spec's words (stage-aware completion gate): consumption for
a lifecycle stage of a batch is recognized once at least one scheduled
entry for that batch, mapped through its process template's declared stage,
has status Complete.  (This definition is the spec's side of the C1
comparison; the implemented engine gates on `completedBatch` instead.) -/
def specStageCompleteGate (s : ScenarioData) (bid : String) (stage : Stage) : Bool :=
  s.schedule.any
    (fun e =>
      e.batchId = bid ∧ e.status = BatchStatus.Complete ∧
        ((s.processes.find? (fun p => p.id = e.processId)).map ProcessTemplate.stage
          = some stage))

/-! ## Concrete snapshots used by the claim checks -/

/-- Neutral global inputs shared by the examples. -/
def exInputs : GlobalInputs :=
  { salePricePerUnit := 10
    monthlyDemand := 100
    availableMinutesPerMonth := 1000
    oee := 8 / 10
    downtimePct := 0
    labourRatePerHour := 30
    labourMinutesPerUnit := 6
    qualityCostPerUnit := 0
    scrapRatePct := none
    overheadPct := none
    holdingRatePctAnnual := none
    safetyStockDays := none
    capexTotal := 1200
    depreciationMonths := 12
    marginGuardrailPct := 20 }

/-- Empty scenario around `exInputs`. -/
def exBase : ScenarioData :=
  { name := ScenarioName.Pilot
    decisions := []
    capas := []
    inputs := exInputs
    stock := []
    people := []
    machines := []
    processes := []
    batches := []
    schedule := []
    maintenanceBlocks := []
    logistics := []
    warehouses := []
    risks := []
    auditLog := [] }

/-- A stock item with the given id, name, unit cost and BOM usage. -/
def mkItem (id name : String) (cost usage : ℚ) : StockItem :=
  { id := id
    name := name
    itemType := StockType.Component
    unitCost := cost
    uom := "pcs"
    location := "A1"
    usagePerFinishedUnit := usage
    leadTimeDays := 10
    moq := 1
    singleSource := false
    onHandQty := 500
    reorderPointQty := none
    minQty := none }

/-- A production batch with the given id, quantities, scrap stage, reject
text and status. -/
def mkBatch (id : String) (good scrap : ℚ) (stage : Stage) (rejects : String)
    (status : BatchStatus) : ProductionBatch :=
  { id := id
    batchNumber := id
    purpose := ""
    plannedQty := good + scrap
    goodQty := good
    scrapStage := stage
    scrapQty := scrap
    componentRejects := rejects
    status := status
    notes := ""
    observations := "" }

/-- A schedule entry with the given batch, day, duration, process, machine
CSV and status. -/
def mkEntry (id bid : String) (date dur : ℤ) (pid : String) (machinesCsv : String)
    (status : BatchStatus) : ScheduledProcess :=
  { id := id
    batchId := bid
    date := date
    durationDays := dur
    processId := pid
    assignedPeopleIdsCsv := ""
    assignedMachineIdsCsv := machinesCsv
    status := status
    notes := ""
    observations := "" }

/-- C1 snapshot: one stock item, one batch with 5 good units, and a single
Complete schedule entry whose process template is Post-Assembly staged, so
no Assembly-stage entry of the batch is Complete. -/
def ex1 : ScenarioData :=
  { exBase with
    stock := [mkItem "w1" "Widget" 3 1]
    processes :=
      [{ id := "p1"
         name := "Final QA"
         stage := Stage.PostAssembly
         defaultDurationMin := 60
         allowedMachineTypesCsv := ""
         notes := "" }]
    batches := [mkBatch "b1" 5 0 Stage.Assembly "" BatchStatus.Planned]
    schedule := [mkEntry "e1" "b1" 19732 1 "p1" "" BatchStatus.Complete] }

/-- C2 snapshot: a single Planned entry on epoch day 19732. -/
def ex2 : ScenarioData :=
  { exBase with schedule := [mkEntry "e1" "b1" 19732 1 "p1" "" BatchStatus.Planned] }

/-- A variant of `ex2` differing only in collections the detector never
reads. -/
def ex2b : ScenarioData :=
  { ex2 with stock := [mkItem "w1" "Widget" 3 1] }

/-- C3 snapshot: entry `e1` spans 2024-01-10..2024-01-11 (epoch days
19732..19733) on machine `M1`; a non-Cancelled maintenance block covers
2024-01-11 on `M1`; nothing else is booked. -/
def ex3 : ScenarioData :=
  { exBase with
    machines :=
      [{ id := "M1", name := "Press", machineType := "Press",
         status := MachineStatus.Available, notes := "" }]
    schedule := [mkEntry "e1" "b1" 19732 2 "p1" "M1" BatchStatus.Planned]
    maintenanceBlocks :=
      [{ id := "mb1", date := 19733, durationDays := 1, machineIdsCsv := "M1",
         title := "PM", notes := "", status := MaintStatus.Planned }] }

/-- The schedule entry of `ex3`. -/
def ex3entry : ScheduledProcess := mkEntry "e1" "b1" 19732 2 "p1" "M1" BatchStatus.Planned

/-- A 42-day calendar grid containing January 2024 (Monday 2024-01-01 =
epoch day 19723 onward), as built by the month view. -/
def exGrid : List ℤ := (List.range 42).map (fun i => (19723 : ℤ) + (i : ℤ))

/-! ## Supporting lemmas: consumption maps -/

/-- Reading a BOM-update fold at a key that no item of the list carries. -/
theorem foldlUpd_read_not_mem (l : List StockItem) (t : String → ℚ) (u : ℚ) (id : String)
    (h : id ∉ l.map StockItem.id) :
    (l.foldl (fun t item => updateFn t item.id (t item.id + u * item.usagePerFinishedUnit)) t) id
      = t id := by
  induction l generalizing t with
  | nil => rfl
  | cons x xs ih =>
      simp only [List.map_cons, List.mem_cons, not_or] at h
      simp only [List.foldl_cons]
      rw [ih _ h.2]
      simp [updateFn, h.1]

/-- Reading a BOM-update fold at the id of a listed item, when ids are
pairwise distinct. -/
theorem foldlUpd_read_mem (l : List StockItem) (t : String → ℚ) (u : ℚ) (it : StockItem)
    (hn : (l.map StockItem.id).Nodup) (hm : it ∈ l) :
    (l.foldl (fun t item => updateFn t item.id (t item.id + u * item.usagePerFinishedUnit)) t) it.id
      = t it.id + u * it.usagePerFinishedUnit := by
  induction l generalizing t with
  | nil => simp at hm
  | cons x xs ih =>
      simp only [List.map_cons, List.nodup_cons] at hn
      simp only [List.foldl_cons]
      rcases List.mem_cons.mp hm with h | h
      · subst h
        rw [foldlUpd_read_not_mem _ _ _ _ hn.1]
        simp [updateFn]
      · have hne : it.id ≠ x.id := by
          intro he
          exact hn.1 (he ▸ List.mem_map_of_mem StockItem.id h)
        rw [ih _ hn.2 h]
        simp [updateFn, hne]

/-- `addBomConsumption` read at a listed item's id: the per-item increment
is `units * usagePerFinishedUnit` (also when `units = 0`, where the source
returns early). -/
theorem addBomConsumption_read (s : ScenarioData) (t : String → ℚ) (u : ℚ) (it : StockItem)
    (hn : (s.stock.map StockItem.id).Nodup) (hm : it ∈ s.stock) :
    addBomConsumption s t u it.id = t it.id + u * it.usagePerFinishedUnit := by
  unfold addBomConsumption
  split
  · next h => rw [h]; ring
  · exact foldlUpd_read_mem _ _ _ _ hn hm

/-- C6: for a batch whose consumption gate is satisfied (the per-batch step
`applyBatch` runs on it), with scrap stage Assembly, positive scrap
quantity, and component-reject text yielding no well-formed lines, the
engine falls back to full-BOM scrap consumption: the step is identical to
the Post-Assembly handling of the same batch, and each stock item's
consumption grows by `goodQty * usage + scrapQty * usage` — scrap is never
silently dropped. -/
theorem assembly_scrap_fallback_eq_full_bom (s : ScenarioData) (acc : String → ℚ)
    (b : ProductionBatch)
    (hstage : b.scrapStage = Stage.Assembly)
    (hparse : parseItemQtyLinesToIdQty s b.componentRejects = [])
    (hscrap : 0 < b.scrapQty)
    (hn : (s.stock.map StockItem.id).Nodup) :
    applyBatch s acc b = applyBatch s acc { b with scrapStage := Stage.PostAssembly }
      ∧ ∀ it ∈ s.stock,
          applyBatch s acc b it.id
            = acc it.id + b.goodQty * it.usagePerFinishedUnit
                + b.scrapQty * it.usagePerFinishedUnit := by
  have hne : ¬ b.scrapQty = 0 := ne_of_gt hscrap
  constructor
  · simp only [applyBatch, hstage, hparse, if_neg hne, if_pos rfl, if_true]
  · intro it hit
    simp only [applyBatch, hstage, hparse, if_neg hne, if_pos rfl, if_true]
    rw [addBomConsumption_read s _ b.scrapQty it hn hit,
      addBomConsumption_read s acc b.goodQty it hn hit]

/-- Witness for C6 at a concrete snapshot: one stock item of usage 2, a
batch with 5 good and 2 Assembly-stage scrap units and empty reject text;
the per-batch step equals its Post-Assembly variant and consumes
`0 + 5*2 + 2*2 = 14` of the item. -/
theorem assembly_scrap_fallback_witness :
    applyBatch { exBase with stock := [mkItem "w1" "Widget" 3 2] } (fun _ => 0)
        (mkBatch "b1" 5 2 Stage.Assembly "" BatchStatus.Planned)
      = applyBatch { exBase with stock := [mkItem "w1" "Widget" 3 2] } (fun _ => 0)
          { mkBatch "b1" 5 2 Stage.Assembly "" BatchStatus.Planned with
              scrapStage := Stage.PostAssembly }
      ∧ applyBatch { exBase with stock := [mkItem "w1" "Widget" 3 2] } (fun _ => 0)
          (mkBatch "b1" 5 2 Stage.Assembly "" BatchStatus.Planned) "w1" = 14 := by
  have h := assembly_scrap_fallback_eq_full_bom
    { exBase with stock := [mkItem "w1" "Widget" 3 2] } (fun _ => 0)
    (mkBatch "b1" 5 2 Stage.Assembly "" BatchStatus.Planned)
    (by rfl) (by rfl) (by norm_num [mkBatch]) (by simp [mkItem])
  refine ⟨h.1, ?_⟩
  have h2 := h.2 (mkItem "w1" "Widget" 3 2) (by simp)
  norm_num [mkItem, mkBatch] at h2
  simpa [mkItem] using h2

/-- C10: `stockConsumptionFromCompletedBatches` never inspects the batch's
own status field — rewriting every batch's status (by any function, so in
particular to Cancelled, Rejected or Quarantine) leaves the consumption map
unchanged; and concretely, the batch of `ex1` contributes its 5 good units
even when its own status is Cancelled, because a schedule entry referencing
it is Complete. -/
theorem stockConsumption_ignores_batch_status :
    (∀ (s : ScenarioData) (f : ProductionBatch → BatchStatus),
        stockConsumptionFromCompletedBatches
            { s with batches := s.batches.map (fun b => { b with status := f b }) }
          = stockConsumptionFromCompletedBatches s)
      ∧ stockConsumptionFromCompletedBatches
          { ex1 with batches := [mkBatch "b1" 5 0 Stage.Assembly "" BatchStatus.Cancelled] }
          "w1" = 5 := by
  constructor
  · intro s f
    simp only [stockConsumptionFromCompletedBatches, List.foldl_map]
    rfl
  · norm_num [stockConsumptionFromCompletedBatches, ex1, exBase, completedBatch, applyBatch,
      addBomConsumption, updateFn, mkItem, mkBatch, mkEntry]

/-- C1: the implemented consumption gate is not stage-aware.  In `ex1` the
only Complete schedule entry of batch `b1` maps through a Post-Assembly
process template, so no Assembly-stage entry of the batch is Complete
(`specStageCompleteGate` is false), yet the engine counts the batch's
5 good units — Assembly-stage consumption — because it gates on
`completedBatch`, a single any-entry-Complete check. -/
theorem anyCompleteGate_not_stage_aware :
    stockConsumptionFromCompletedBatches ex1 "w1" = 5
      ∧ specStageCompleteGate ex1 "b1" Stage.Assembly = false
      ∧ completedBatch ex1 "b1" = true := by
  refine ⟨?_, by decide, by decide⟩
  norm_num [stockConsumptionFromCompletedBatches, ex1, exBase, completedBatch, applyBatch,
    addBomConsumption, updateFn, mkItem, mkBatch, mkEntry]

/-! ## Supporting lemmas: conflict detector -/

/-- `riskClass` reads the snapshot only through its schedule and its
maintenance blocks. -/
theorem riskClass_depends_only_on_schedule_maintenance
    (s1 s2 : ScenarioData) (today : ℤ) (evt : ScheduledProcess)
    (h1 : s1.schedule = s2.schedule) (h2 : s1.maintenanceBlocks = s2.maintenanceBlocks) :
    riskClass s1 today evt = riskClass s2 today evt := by
  simp only [riskClass, byDayPeople, byDayMachines, maintenanceBooking, h1, h2]

/-- C2 counterexample: `scheduleRiskSummary` is not a function of the
snapshot alone — on the very same snapshot `ex2`, the counts differ between
a clock reading of epoch day 19732 and one of epoch day 19800, because the
7-day window is anchored at `new Date()` read inside the engine. -/
theorem scheduleRiskSummary_clock_dependent :
    scheduleRiskSummary ex2 19732 ≠ scheduleRiskSummary ex2 19800 := by decide

/-- C2 (amended): `scheduleRiskSummary` is deterministic in the snapshot's
schedule, its maintenance blocks, and the internally-read clock day: two
invocations agreeing on those three return bit-identical counts (no other
hidden state or randomness enters the computation). -/
theorem scheduleRiskSummary_deterministic (s1 s2 : ScenarioData) (today : ℤ)
    (h1 : s1.schedule = s2.schedule) (h2 : s1.maintenanceBlocks = s2.maintenanceBlocks) :
    scheduleRiskSummary s1 today = scheduleRiskSummary s2 today := by
  have hrc : riskClass s1 today = riskClass s2 today :=
    funext fun evt => riskClass_depends_only_on_schedule_maintenance s1 s2 today evt h1 h2
  rw [scheduleRiskSummary, scheduleRiskSummary, h1, hrc]

/-- Witness for the amended C2: `ex2` and `ex2b` share schedule and
maintenance blocks (differing in stock) and get identical counts. -/
theorem scheduleRiskSummary_deterministic_witness :
    scheduleRiskSummary ex2 19732 = scheduleRiskSummary ex2b 19732 :=
  scheduleRiskSummary_deterministic ex2 ex2b 19732 (by rfl) (by rfl)

/-- C3: on the spec's scenario (`ex3`: entry spanning 2024-01-10..11 on
machine M1, maintenance block on 2024-01-11 naming M1, window anchored at
2024-01-10), the machine is maintenance-booked on 2024-01-11 and not on
2024-01-10, yet `scheduleRiskSummary` counts the entry ready, not at risk:
the evaluation loop checks maintenance clashes only on the entry's start
day. -/
theorem maintenance_clash_on_second_day_missed :
    scheduleRiskSummary ex3 19732 = { ready := 1, atRisk := 0, blocked := 0 }
      ∧ maintenanceBooking ex3 "M1" 19733 = true
      ∧ maintenanceBooking ex3 "M1" 19732 = false := by decide

/-- C5 counterexample: the per-day predicate and the aggregate detector
disagree on `ex3` — `eventHasConflictOnDay` reports a conflict for the
entry on 2024-01-11 (the second day of its span) while the aggregate counts
the entry ready, not at risk. -/
theorem eventHasConflictOnDay_disagrees_on_span_day :
    eventHasConflictOnDay ex3 exGrid ex3entry 19733 = true
      ∧ scheduleRiskSummary ex3 19732 = { ready := 1, atRisk := 0, blocked := 0 } := by decide

/-- On a day lying in both the detector's window and the calendar grid, the
detector's booking tallies and the calendar's booking tallies coincide
(people). -/
theorem byDayPeople_eq_conflictsByDayPeople (s : ScenarioData) (today : ℤ) (grid : List ℤ)
    (d : ℤ) (p : String) (hw : d ∈ windowDays today) (hg : d ∈ grid) :
    byDayPeople s today d p = conflictsByDayPeople s grid d p := by
  simp [byDayPeople, conflictsByDayPeople, hw, hg]

/-- On a day lying in both the detector's window and the calendar grid, the
detector's booking tallies and the calendar's booking tallies coincide
(machines). -/
theorem byDayMachines_eq_conflictsByDayMachines (s : ScenarioData) (today : ℤ) (grid : List ℤ)
    (d : ℤ) (m : String) (hw : d ∈ windowDays today) (hg : d ∈ grid) :
    byDayMachines s today d m = conflictsByDayMachines s grid d m := by
  simp [byDayMachines, conflictsByDayMachines, hw, hg]

/-- The detector's `maintenanceBooking` and the calendar's
`machineBlockedByMaintenance` are the same test. -/
theorem maintenanceBooking_eq_machineBlockedByMaintenance :
    maintenanceBooking = machineBlockedByMaintenance := rfl

/-- The evaluation fold of `scheduleRiskSummary`, counted entry by entry:
each field is the number of schedule entries of the corresponding
`riskClass`. -/
theorem riskFold_counts (s : ScenarioData) (today : ℤ) (l : List ScheduledProcess)
    (c : RiskSummary) :
    (l.foldl
        (fun c evt =>
          match riskClass s today evt with
          | some RiskTag.ready => { c with ready := c.ready + 1 }
          | some RiskTag.atRisk => { c with atRisk := c.atRisk + 1 }
          | some RiskTag.blocked => { c with blocked := c.blocked + 1 }
          | none => c)
        c)
      = { ready := c.ready + l.countP (fun e => riskClass s today e == some RiskTag.ready)
          atRisk := c.atRisk + l.countP (fun e => riskClass s today e == some RiskTag.atRisk)
          blocked := c.blocked + l.countP (fun e => riskClass s today e == some RiskTag.blocked) } := by
  induction l generalizing c with
  | nil => simp
  | cons e t ih =>
      simp only [List.foldl_cons, List.countP_cons]
      cases h : riskClass s today e with
      | none => rw [ih]; simp [h]
      | some tag =>
          cases tag <;>
            · rw [ih]
              simp [h]
              omega

/-- `scheduleRiskSummary` as per-entry counts over `riskClass`. -/
theorem scheduleRiskSummary_eq_counts (s : ScenarioData) (today : ℤ) :
    scheduleRiskSummary s today
      = { ready := s.schedule.countP (fun e => riskClass s today e == some RiskTag.ready)
          atRisk := s.schedule.countP (fun e => riskClass s today e == some RiskTag.atRisk)
          blocked := s.schedule.countP (fun e => riskClass s today e == some RiskTag.blocked) } := by
  rw [scheduleRiskSummary, riskFold_counts]
  simp

/-- C5 (amended): the per-day predicate agrees with the aggregate exactly
at the point where the aggregate evaluates an entry — its start day — for
any start day lying in both the detector's 7-day window and the calendar's
visible grid: a non-blocked entry is classified at risk by the aggregate's
per-entry classification if and only if `eventHasConflictOnDay` reports a
conflict for it on its start day; and the aggregate's `atRisk` count is
exactly the number of schedule entries so classified.  (On later days of a
multi-day span the predicate can flag conflicts the aggregate never
examines.) -/
theorem eventHasConflictOnDay_agrees_on_start_day (s : ScenarioData) (grid : List ℤ)
    (today : ℤ) (evt : ScheduledProcess)
    (hw : evt.date ∈ windowDays today) (hg : evt.date ∈ grid)
    (hb : blockedStatus evt.status = false) :
    (riskClass s today evt = some RiskTag.atRisk
        ↔ eventHasConflictOnDay s grid evt evt.date = true)
      ∧ (scheduleRiskSummary s today).atRisk
          = s.schedule.countP (fun e => riskClass s today e == some RiskTag.atRisk) := by
  have hpeq : ∀ p, byDayPeople s today evt.date p = conflictsByDayPeople s grid evt.date p :=
    fun p => byDayPeople_eq_conflictsByDayPeople s today grid evt.date p hw hg
  have hmeq : ∀ m, byDayMachines s today evt.date m = conflictsByDayMachines s grid evt.date m :=
    fun m => byDayMachines_eq_conflictsByDayMachines s today grid evt.date m hw hg
  constructor
  · simp only [riskClass, if_pos hw, hb, Bool.false_eq_true, if_false,
      eventHasConflictOnDay, if_pos hg, hpeq, hmeq,
      maintenanceBooking_eq_machineBlockedByMaintenance]
    cases hq :
        ((parseCsv evt.assignedPeopleIdsCsv).any
              (fun p => conflictsByDayPeople s grid evt.date p > 1) ||
            (parseCsv evt.assignedMachineIdsCsv).any
              (fun m => conflictsByDayMachines s grid evt.date m > 1)) ||
          (parseCsv evt.assignedMachineIdsCsv).any
            (fun m => machineBlockedByMaintenance s m evt.date) <;>
      simp [hq]
  · rw [scheduleRiskSummary_eq_counts]

/-- Witness for the amended C5 at `ex3` on the start day 2024-01-10, which
lies in both the window anchored there and the January 2024 grid. -/
theorem eventHasConflictOnDay_agrees_witness :
    riskClass ex3 19732 ex3entry = some RiskTag.atRisk
      ↔ eventHasConflictOnDay ex3 exGrid ex3entry 19732 = true :=
  (eventHasConflictOnDay_agrees_on_start_day ex3 exGrid 19732 ex3entry
    (by decide) (by decide) (by decide)).1

/-! ## Supporting lemmas: finiteness in the cost model -/

/-- A finite JS number is a rational. -/
theorem JsNum.isFinite_iff (a : JsNum) : a.isFinite = true ↔ ∃ q : ℚ, a = JsNum.num q := by
  cases a <;> simp [JsNum.isFinite]

/-- Sums of finite JS numbers are finite (overflow abstracted away). -/
theorem JsNum.isFinite_add (a b : JsNum) (ha : a.isFinite = true) (hb : b.isFinite = true) :
    (JsNum.add a b).isFinite = true := by
  cases a <;> cases b <;> simp_all [JsNum.add, JsNum.isFinite]

/-- Products of finite JS numbers are finite. -/
theorem JsNum.isFinite_mul (a b : JsNum) (ha : a.isFinite = true) (hb : b.isFinite = true) :
    (JsNum.mul a b).isFinite = true := by
  cases a <;> cases b <;> simp_all [JsNum.mul, JsNum.isFinite]

/-- `safeDivide` with a finite numerator is always finite: the guard sends
every non-positive (or NaN) denominator to 0, a positive rational
denominator divides exactly, and a positive infinite denominator yields 0. -/
theorem safeDivide_isFinite (n d : JsNum) (hn : n.isFinite = true) :
    (safeDivide n d).isFinite = true := by
  obtain ⟨q, rfl⟩ := (JsNum.isFinite_iff n).mp hn
  cases d with
  | num b =>
      by_cases hb : 0 < b
      · simp [safeDivide, JsNum.lt, hb, JsNum.div, ne_of_gt hb, JsNum.isFinite]
      · simp [safeDivide, JsNum.lt, hb, JsNum.isFinite]
  | posInf => simp [safeDivide, JsNum.lt, JsNum.div, JsNum.isFinite]
  | negInf => simp [safeDivide, JsNum.lt, JsNum.isFinite]
  | nan => simp [safeDivide, JsNum.lt, JsNum.isFinite]

/-- A left fold of JS additions of finite values, from a finite start, is
finite. -/
theorem isFinite_foldl_add {α : Type} (l : List α) (g : α → JsNum) (init : JsNum)
    (h0 : init.isFinite = true) (hg : ∀ x ∈ l, (g x).isFinite = true) :
    (l.foldl (fun sum x => JsNum.add sum (g x)) init).isFinite = true := by
  induction l generalizing init with
  | nil => exact h0
  | cons x xs ih =>
      simp only [List.foldl_cons]
      exact ih _ (JsNum.isFinite_add _ _ h0 (hg x (List.mem_cons_self x xs)))
        (fun y hy => hg y (List.mem_cons_of_mem x hy))

/-- C7: for any snapshot with monthly demand 0, the cost model's total is a
finite number — every division goes through `safeDivide`, whose guard
returns 0 whenever the denominator is not strictly positive, so the zero
effective volume never produces NaN or Infinity. -/
theorem computeCostBreakdown_total_finite (s : ScenarioData)
    (hd : s.inputs.monthlyDemand = 0) :
    ((computeCostBreakdown s).total).isFinite = true := by
  clear hd
  simp only [computeCostBreakdown]
  have hlab :
      (JsNum.mul (JsNum.div (jq s.inputs.labourRatePerHour) (JsNum.num 60))
          (jq s.inputs.labourMinutesPerUnit)).isFinite = true := by
    simp [JsNum.div, jq, JsNum.mul, JsNum.isFinite, (by norm_num : (60 : ℚ) ≠ 0)]
  have hmat :
      ((s.stock.foldl
          (fun sum i => JsNum.add sum (JsNum.mul (jq i.unitCost) (jq i.usagePerFinishedUnit)))
          (JsNum.num 0))).isFinite = true :=
    isFinite_foldl_add _ _ _ (by rfl) (fun x _ => by simp [jq, JsNum.mul, JsNum.isFinite])
  have hlog :
      ((s.logistics.foldl
          (fun sum l => JsNum.add sum (safeDivide (jq l.costPerShipment) (jq l.unitsPerShipment)))
          (JsNum.num 0))).isFinite = true :=
    isFinite_foldl_add _ _ _ (by rfl) (fun x _ => safeDivide_isFinite _ _ (by rfl))
  have hwm :
      ((s.warehouses.foldl (fun sum w => JsNum.add sum (jq w.monthlyCost))
          (JsNum.num 0))).isFinite = true :=
    isFinite_foldl_add _ _ _ (by rfl) (fun x _ => by rfl)
  have hhold :
      (JsNum.mul
          (s.stock.foldl
            (fun sum i => JsNum.add sum (JsNum.mul (jq i.unitCost) (jq i.usagePerFinishedUnit)))
            (JsNum.num 0))
          (holdingRateMonthly s)).isFinite = true := by
    refine JsNum.isFinite_mul _ _ hmat ?_
    simp [holdingRateMonthly, JsNum.div, jq, JsNum.isFinite, (by norm_num : (12 : ℚ) ≠ 0)]
  have hcap :
      (safeDivide (safeDivide (jq s.inputs.capexTotal) (jq s.inputs.depreciationMonths))
          (JsNum.mul (jq s.inputs.monthlyDemand) (scrapMultiplier s))).isFinite = true :=
    safeDivide_isFinite _ _ (safeDivide_isFinite _ _ (by rfl))
  refine JsNum.isFinite_add _ _ ?_ (by rfl)
  refine JsNum.isFinite_add _ _ ?_ hcap
  refine JsNum.isFinite_add _ _ ?_ hhold
  refine JsNum.isFinite_add _ _ ?_ (safeDivide_isFinite _ _ hwm)
  refine JsNum.isFinite_add _ _ ?_ hlog
  refine JsNum.isFinite_add _ _ ?_ hmat
  exact JsNum.isFinite_add _ _ hlab (JsNum.isFinite_mul _ _ hlab (by rfl))

/-- Witness for C7: a concrete zero-demand snapshot with stock, a lane and
a warehouse; the total evaluates to a finite number. -/
theorem computeCostBreakdown_total_finite_witness :
    ({ exBase with
        inputs := { exInputs with monthlyDemand := 0 }
        stock := [mkItem "w1" "Widget" 3 2]
        logistics :=
          [{ id := "l1", lane := "CN-AU", direction := LaneDirection.Inbound,
             mode := LaneMode.Sea, costPerShipment := 1000, unitsPerShipment := 0 }]
        warehouses :=
          [{ id := "wh1", location := "Sydney", warehouseType := WarehouseType.FG,
             monthlyCost := 2000, utilizationPct := 50, capacityPctLimit := none }] } :
        ScenarioData).inputs.monthlyDemand = 0
      ∧ ((computeCostBreakdown
          { exBase with
              inputs := { exInputs with monthlyDemand := 0 }
              stock := [mkItem "w1" "Widget" 3 2]
              logistics :=
                [{ id := "l1", lane := "CN-AU", direction := LaneDirection.Inbound,
                   mode := LaneMode.Sea, costPerShipment := 1000, unitsPerShipment := 0 }]
              warehouses :=
                [{ id := "wh1", location := "Sydney", warehouseType := WarehouseType.FG,
                   monthlyCost := 2000, utilizationPct := 50, capacityPctLimit := none }] }).total).isFinite
          = true :=
  ⟨rfl, computeCostBreakdown_total_finite _ rfl⟩

/-- A zero-minutes snapshot exercising the labour formula. -/
def ex8 : ScenarioData :=
  { exBase with
    inputs := { exInputs with labourRatePerHour := 1, labourMinutesPerUnit := 0 } }

/-- C8 counterexample: with `labourMinutesPerUnit = 0`, raising the labour
rate from 1 to 2 (all other inputs fixed) leaves the labour component
unchanged at 0 — the claimed strict increase fails when quantified over all
snapshots. -/
theorem labour_not_strictly_monotone_at_zero_minutes :
    JsNum.lt (computeCostBreakdown ex8).labour
        (computeCostBreakdown
          { ex8 with inputs := { ex8.inputs with labourRatePerHour := 2 } }).labour = false
      ∧ ex8.inputs.labourRatePerHour < 2 := by
  constructor
  · simp [computeCostBreakdown, ex8, exBase, exInputs, jq, JsNum.div, JsNum.mul, JsNum.lt]
  · norm_num [ex8, exBase, exInputs]

/-- C8 (amended): raising `labourRatePerHour`, all other inputs held fixed,
strictly increases the labour component of `computeCostBreakdown`,
provided `labourMinutesPerUnit` is strictly positive (with zero or negative
minutes per unit the labour product does not strictly increase). -/
theorem labour_strictly_monotone (s : ScenarioData) (r2 : ℚ)
    (hr : s.inputs.labourRatePerHour < r2)
    (hm : 0 < s.inputs.labourMinutesPerUnit) :
    JsNum.lt (computeCostBreakdown s).labour
        (computeCostBreakdown { s with inputs := { s.inputs with labourRatePerHour := r2 } }).labour
      = true := by
  simp only [computeCostBreakdown, jq, JsNum.div, JsNum.mul, JsNum.lt]
  rw [if_neg (by norm_num : ¬ (60 : ℚ) = 0), if_neg (by norm_num : ¬ (60 : ℚ) = 0)]
  simp only [decide_eq_true_eq]
  have h60 : s.inputs.labourRatePerHour / 60 < r2 / 60 :=
    div_lt_div_of_pos_right hr (by norm_num)
  exact mul_lt_mul_of_pos_right h60 hm

/-- Witness for the amended C8: rate 30 → 40 with 6 minutes per unit
strictly increases labour. -/
theorem labour_strictly_monotone_witness :
    JsNum.lt (computeCostBreakdown exBase).labour
        (computeCostBreakdown
          { exBase with inputs := { exBase.inputs with labourRatePerHour := 40 } }).labour
      = true :=
  labour_strictly_monotone exBase 40 (by norm_num [exBase, exInputs])
    (by norm_num [exBase, exInputs])

/-- C4: when an absolute consumption-override line is present for an item
on a production run, the reported consumed quantity for that item on that
run equals the override value exactly — replacing the computed BOM/scrap
quantity, not adding to it — and stays equal to the override whatever the
run's good and scrap unit counts are. -/
theorem consumption_override_replaces (s : Legacy.ScenarioData) (r : Legacy.ProductionRun)
    (id : String) (q : ℚ)
    (h : (Legacy.parseItemQtyLines s r.consumptionOverrides).lookup id = some q) :
    Legacy.runConsumption s r id = q
      ∧ ∀ g2 sc2 : ℚ,
          Legacy.runConsumption s { r with unitsGood := g2, unitsScrap := sc2 } id = q := by
  constructor
  · simp only [Legacy.runConsumption]
    rw [h]
  · intro g2 sc2
    simp only [Legacy.runConsumption]
    rw [show ({ r with unitsGood := g2, unitsScrap := sc2 } :
        Legacy.ProductionRun).consumptionOverrides = r.consumptionOverrides from rfl, h]

/-- Legacy scenario for the C4 witness: one inventory item `Widget`. -/
def exL4 : Legacy.ScenarioData :=
  { name := ScenarioName.Pilot
    decisions := []
    inputs := exInputs
    inventory :=
      [{ id := "w1", name := "Widget", category := Legacy.ItemCategory.Component,
         unitCost := 3, usagePerProduct := 2, leadTimeDays := 10, moq := 1,
         singleSource := false, onHandQty := 500, reorderPointQty := none,
         minQty := none, uom := none, location := none }]
    logistics := []
    machines := []
    people := []
    production := []
    warehouses := []
    maintenance := []
    auditLog := [] }

/-- A completed run of 10 good units (computed BOM consumption would be 20)
carrying the absolute override line `Widget, 7`. -/
def exRun4 : Legacy.ProductionRun :=
  { id := "r1"
    date := 19732
    startTime := "08:00"
    durationMin := 120
    process := "Final Assembly"
    workOrder := "WO-1"
    unitsPlanned := 10
    unitsGood := 10
    unitsScrap := 0
    scrapScope := Legacy.ScrapScope.FullBom
    componentScrapOverrides := ""
    assignedPeople := ""
    machinesUsed := ""
    status := Legacy.RunStatus.Complete
    notes := ""
    observations := ""
    consumptionOverrides := "Widget, 7" }

/-- Witness for C4: on `exL4`/`exRun4` the override line parses to 7 and
the reported consumption for `Widget` is exactly 7, not the computed 20. -/
theorem consumption_override_replaces_witness :
    (Legacy.parseItemQtyLines exL4 exRun4.consumptionOverrides).lookup "w1" = some 7
      ∧ Legacy.runConsumption exL4 exRun4 "w1" = 7 := by
  have h : (Legacy.parseItemQtyLines exL4 exRun4.consumptionOverrides).lookup "w1"
      = some ((1 : ℚ) * (0 * 10 + ((('7'.toNat : ℕ) : ℚ) - 48))) := rfl
  have h7 : (Legacy.parseItemQtyLines exL4 exRun4.consumptionOverrides).lookup "w1"
      = some 7 := by
    rw [h]
    norm_num [show ('7').toNat = 55 from by decide]
  exact ⟨h7, (consumption_override_replaces exL4 exRun4 "w1" 7 h7).1⟩

/-- The reducer of `bottleneckStation` computes a first-occurrence maximum:
folding `worst < r ? r : worst` over a list either returns the initial row
(when nothing strictly exceeds it) or the first listed row attaining the
maximum, every earlier row being strictly smaller. -/
theorem pickFold_firstMax (l : List Legacy.StationCapacityRow)
    (init : Legacy.StationCapacityRow) :
    ((∀ y ∈ l, y.utilizationPct ≤ init.utilizationPct) ∧
        l.foldl (fun worst r => if worst.utilizationPct < r.utilizationPct then r else worst) init
          = init)
      ∨ ∃ i : Fin l.length,
          l.foldl (fun worst r => if worst.utilizationPct < r.utilizationPct then r else worst) init
              = l.get i
            ∧ init.utilizationPct < (l.get i).utilizationPct
            ∧ (∀ y ∈ l, y.utilizationPct ≤ (l.get i).utilizationPct)
            ∧ ∀ j : Fin l.length, (j : ℕ) < (i : ℕ) →
                (l.get j).utilizationPct < (l.get i).utilizationPct := by
  induction l generalizing init with
  | nil => exact Or.inl ⟨by simp, rfl⟩
  | cons x xs ih =>
      simp only [List.foldl_cons]
      by_cases hx : init.utilizationPct < x.utilizationPct
      · rw [if_pos hx]
        rcases ih x with ⟨hall, heq⟩ | ⟨i, heq, hgt, hall, hstrict⟩
        · refine Or.inr ⟨⟨0, by simp⟩, ?_, ?_, ?_, ?_⟩
          · simpa using heq
          · simpa using hx
          · intro y hy
            rcases List.mem_cons.mp hy with rfl | hy
            · simp
            · simpa using hall y hy
          · intro j hj
            simp at hj
        · refine Or.inr ⟨⟨(i : ℕ) + 1, by simpa using i.isLt⟩, ?_, ?_, ?_, ?_⟩
          · simpa using heq
          · simpa using lt_trans hx hgt
          · intro y hy
            rcases List.mem_cons.mp hy with rfl | hy
            · simpa using le_of_lt hgt
            · simpa using hall y hy
          · intro j hj
            rcases j with ⟨jv, hjv⟩
            cases jv with
            | zero => simpa using hgt
            | succ j2 =>
                have := hstrict ⟨j2, by simpa using hjv⟩ (by simpa using hj)
                simpa using this
      · rw [if_neg hx]
        have hxle : x.utilizationPct ≤ init.utilizationPct := not_lt.mp hx
        rcases ih init with ⟨hall, heq⟩ | ⟨i, heq, hgt, hall, hstrict⟩
        · refine Or.inl ⟨?_, heq⟩
          intro y hy
          rcases List.mem_cons.mp hy with rfl | hy
          · exact hxle
          · exact hall y hy
        · refine Or.inr ⟨⟨(i : ℕ) + 1, by simpa using i.isLt⟩, ?_, ?_, ?_, ?_⟩
          · simpa using heq
          · simpa using hgt
          · intro y hy
            rcases List.mem_cons.mp hy with rfl | hy
            · simpa using le_trans hxle (le_of_lt hgt)
            · simpa using hall y hy
          · intro j hj
            rcases j with ⟨jv, hjv⟩
            cases jv with
            | zero => simpa using lt_of_le_of_lt hxle hgt
            | succ j2 =>
                have := hstrict ⟨j2, by simpa using hjv⟩ (by simpa using hj)
                simpa using this

/-- C9: with at least one machine station, `bottleneckStation` returns a
station row of maximal utilization, and on ties the first such row in
input order: every earlier row has strictly smaller utilization. -/
theorem bottleneckStation_first_max (s : Legacy.ScenarioData) (h : s.machines ≠ []) :
    ∃ i : Fin (Legacy.computeStationCapacity s).length,
      Legacy.bottleneckStation s = some ((Legacy.computeStationCapacity s).get i)
        ∧ (∀ y ∈ Legacy.computeStationCapacity s,
            y.utilizationPct ≤ ((Legacy.computeStationCapacity s).get i).utilizationPct)
        ∧ ∀ j : Fin (Legacy.computeStationCapacity s).length, (j : ℕ) < (i : ℕ) →
            ((Legacy.computeStationCapacity s).get j).utilizationPct
              < ((Legacy.computeStationCapacity s).get i).utilizationPct := by
  have hne : Legacy.computeStationCapacity s ≠ [] := by
    simp [Legacy.computeStationCapacity, h]
  cases hr : Legacy.computeStationCapacity s with
  | nil => exact absurd hr hne
  | cons r0 rest =>
      have hb : Legacy.bottleneckStation s
          = some (rest.foldl
              (fun worst r => if worst.utilizationPct < r.utilizationPct then r else worst)
              r0) := by
        simp only [Legacy.bottleneckStation, hr, List.foldl_cons, lt_irrefl, if_neg,
          if_false]
      rcases pickFold_firstMax rest r0 with ⟨hall, heq⟩ | ⟨i, heq, hgt, hall, hstrict⟩
      · refine ⟨⟨0, by simp⟩, ?_, ?_, ?_⟩
        · rw [hb, heq]
          simp
        · intro y hy
          rcases List.mem_cons.mp hy with rfl | hy
          · simp
          · simpa using hall y hy
        · intro j hj
          simp at hj
      · refine ⟨⟨(i : ℕ) + 1, by simpa using i.isLt⟩, ?_, ?_, ?_⟩
        · rw [hb, heq]
          simp
        · intro y hy
          rcases List.mem_cons.mp hy with rfl | hy
          · simpa using le_of_lt hgt
          · simpa using hall y hy
        · intro j hj
          rcases j with ⟨jv, hjv⟩
          cases jv with
          | zero => simpa using hgt
          | succ j2 =>
              have := hstrict ⟨j2, by simpa using hjv⟩ (by simpa using hj)
              simpa using this

/-- Legacy scenario for the C9 witness: two stations with identical cycle
time and installed count, hence tied utilization. -/
def exL9 : Legacy.ScenarioData :=
  { exL4 with
    machines :=
      [{ id := "st1", station := "SMT", cycleTimeSec := 60, machinesInstalled := 1 },
       { id := "st2", station := "Test", cycleTimeSec := 60, machinesInstalled := 1 }] }

/-- Witness for C9: `exL9` has stations and the bottleneck selector returns
a row. -/
theorem bottleneckStation_first_max_witness :
    exL9.machines ≠ [] ∧ (Legacy.bottleneckStation exL9).isSome = true := by
  refine ⟨by decide, ?_⟩
  obtain ⟨i, h1, _, _⟩ := bottleneckStation_first_max exL9 (by decide)
  rw [h1]
  rfl
